import Mathlib

/-!
Verification of the SFL translation agent (src/sfl_translation.py).

Texts are modelled as lists of characters. Python string operations used by
the source are modelled directly: `in` (substring containment) as `isSubstr`,
`str.lower` as `pyLower` (character-wise ASCII lowering, matching Python on
ASCII input), `str.strip` as `pyStrip`, `str.split()` as `pySplit`, and
`str.endswith` on a one-character suffix as a check of the last character.
-/

namespace SflTranslation

/-- Whitespace predicate used by Python `str.strip` and `str.split()`
(ASCII whitespace characters). -/
def isPySpace (c : Char) : Bool :=
  c = ' ' || c = '\t' || c = '\n' || c = '\r' || c = '\x0b' || c = '\x0c'

/-- Python substring containment `needle in haystack`: the needle occurs
contiguously somewhere in the haystack (the empty needle always occurs). -/
def isSubstr : List Char → List Char → Bool
  | needle, [] => needle.isEmpty
  | needle, c :: cs => needle.isPrefixOf (c :: cs) || isSubstr needle cs

/-- Python `str.lower`, character-wise (ASCII case mapping). -/
def pyLower (text : List Char) : List Char :=
  text.map Char.toLower

/-- Python `str.strip`: remove leading and trailing whitespace. -/
def pyStrip (text : List Char) : List Char :=
  ((text.dropWhile isPySpace).reverse.dropWhile isPySpace).reverse

/-- Helper for `pySplit`: walks the text accumulating the current word
(reversed) and emitting words at whitespace boundaries. -/
def splitAux : List Char → List Char → List (List Char)
  | [], acc => if acc.isEmpty then [] else [acc.reverse]
  | c :: cs, acc =>
    if isPySpace c then
      if acc.isEmpty then splitAux cs [] else acc.reverse :: splitAux cs []
    else splitAux cs (c :: acc)

/-- Python `str.split()` with no argument: split on runs of whitespace,
discarding empty words. -/
def pySplit (text : List Char) : List (List Char) :=
  splitAux text []

/-- The `verbal_markers` list of `_detect_process_type`. -/
def verbal_markers : List (List Char) :=
  ["said".data, "announced".data, "told".data, "asked".data]

/-- The `mental_markers` list of `_detect_process_type`. -/
def mental_markers : List (List Char) :=
  ["think".data, "believe".data, "know".data, "feel".data]

/-- The `material_markers` list of `_detect_process_type`. -/
def material_markers : List (List Char) :=
  ["do".data, "make".data, "create".data, "build".data]

/-- `SFLTranslator._detect_process_type`: lower-case the text, then test the
three marker lists in order verbal, mental, material; default "relational". -/
def _detect_process_type (text : List Char) : String :=
  let text_lower := pyLower text
  if verbal_markers.any (fun marker => isSubstr marker text_lower) then "verbal"
  else if mental_markers.any (fun marker => isSubstr marker text_lower) then "mental"
  else if material_markers.any (fun marker => isSubstr marker text_lower) then "material"
  else "relational"

/-- `SFLTranslator._analyze_mood`: strip the text and inspect the final
character ("?" interrogative, "!" exclamative, otherwise declarative). -/
def _analyze_mood (text : List Char) : String :=
  if (pyStrip text).getLast? = some '?' then "interrogative"
  else if (pyStrip text).getLast? = some '!' then "exclamative"
  else "declarative"

/-- `SFLTranslator._identify_theme`: first word of `text.split()`, or the
empty string when there are no words. -/
def _identify_theme (text : List Char) : List Char :=
  match pySplit text with
  | [] => []
  | w :: _ => w

/-- The `business_terms` list of `_detect_field`. -/
def business_terms : List (List Char) :=
  ["committee".data, "merger".data, "CEO".data, "proposal".data]

/-- `SFLTranslator._detect_field`: case-sensitive substring search of the
business terms in the original text. -/
def _detect_field (text : List Char) : String :=
  if business_terms.any (fun term => isSubstr term text) then "business"
  else "general"

/-- The `formal_markers` list of `_detect_tenor`. -/
def formal_markers : List (List Char) :=
  ["shall".data, "herein".data, "aforementioned".data]

/-- `SFLTranslator._detect_tenor`: search the formal markers in the
lower-cased text. -/
def _detect_tenor (text : List Char) : String :=
  if formal_markers.any (fun marker => isSubstr marker (pyLower text)) then "formal"
  else "neutral"

/-- The register dictionary returned by `_detect_register`. -/
structure RegisterInfo where
  field : String
  tenor : String
  mode : String
deriving DecidableEq, Repr

/-- `SFLTranslator._detect_register`: field and tenor detection plus the
constant mode "written". -/
def _detect_register (text : List Char) : RegisterInfo :=
  ⟨_detect_field text, _detect_tenor text, "written"⟩

/-- `SFLTranslator._extract_participants`: stub, always empty. -/
def _extract_participants (_text : List Char) : List (List Char) := []

/-- `SFLTranslator._extract_circumstances`: stub, always empty. -/
def _extract_circumstances (_text : List Char) : List (List Char) := []

/-- The `markers` list of `_find_cohesion_markers`. -/
def cohesion_marker_list : List (List Char) :=
  ["however".data, "therefore".data, "moreover".data, "thus".data]

/-- `SFLTranslator._find_cohesion_markers`: filter the fixed marker list by
substring containment in the lower-cased text. -/
def _find_cohesion_markers (text : List Char) : List (List Char) :=
  cohesion_marker_list.filter (fun m => isSubstr m (pyLower text))

/-- The `transitivity` dictionary of `SFLAnalysis`. -/
structure Transitivity where
  process_type : String
  participants : List (List Char)
  circumstances : List (List Char)
deriving DecidableEq, Repr

/-- The `SFLAnalysis` dataclass. -/
structure SFLAnalysis where
  transitivity : Transitivity
  mood : String
  theme : List Char
  register : RegisterInfo
  cohesion_markers : List (List Char)
deriving DecidableEq, Repr

/-- `SFLTranslator._extract_sfl_features`: assemble the full analysis. -/
def _extract_sfl_features (text : List Char) : SFLAnalysis :=
  ⟨⟨_detect_process_type text, _extract_participants text, _extract_circumstances text⟩,
   _analyze_mood text,
   _identify_theme text,
   _detect_register text,
   _find_cohesion_markers text⟩

/-- The `TranslationResult` dataclass. Confidence is modelled as a rational
number since the code only ever assigns the literal 0.92 to it. -/
structure TranslationResult where
  translation : List Char
  source_text : List Char
  source_lang : List Char
  target_lang : List Char
  sfl_analysis : Option SFLAnalysis
  confidence : ℚ
deriving DecidableEq

/-- The constructor state of `SFLTranslator` (source and target language,
plus the unused `register` and `localize` settings). -/
structure SFLTranslator where
  source_lang : List Char
  target_lang : List Char
  register : Option String
  localize : Bool

/-- `SFLTranslator._perform_translation`: the stubbed translation, a string
format of the target language and the text.  The `region` argument is
accepted but unused, exactly as in the source. -/
def _perform_translation (self : SFLTranslator) (text : List Char)
    (_region : Option (List Char)) : List Char :=
  "[Translated to ".data ++ self.target_lang ++ "]: ".data ++ text

/-- `SFLTranslator.translate`: run the extractor when `analyze` is set,
perform the stub translation, and assemble the result with constant
confidence 0.92.  `preserve_register` and `cultural_adaptation` are accepted
but never read, exactly as in the source. -/
def translate (self : SFLTranslator) (text : List Char)
    (_preserve_register : Bool) (_cultural_adaptation : Bool)
    (analyze : Bool) (region : Option (List Char)) : TranslationResult :=
  let sfl_features := if analyze then some (_extract_sfl_features text) else none
  let translated_text := _perform_translation self text region
  ⟨translated_text, text, self.source_lang, self.target_lang, sfl_features, 0.92⟩

/-- The `ProcessType` enumeration of the source. -/
inductive ProcessType where
  | material
  | mental
  | relational
  | verbal
  | behavioral
  | existential
deriving DecidableEq, Repr

/-- The string value carried by each `ProcessType` enumeration member. -/
def ProcessType.value : ProcessType → String
  | .material => "material"
  | .mental => "mental"
  | .relational => "relational"
  | .verbal => "verbal"
  | .behavioral => "behavioral"
  | .existential => "existential"

/-- Bridge between the executable substring test and the mathematical
infix relation on lists. -/
theorem isSubstr_iff_infix (n h : List Char) : isSubstr n h = true ↔ n <:+: h := by
  induction h with
  | nil => simp [isSubstr, List.isEmpty_iff]
  | cons c cs ih => simp [isSubstr, ih, List.infix_cons_iff]

/-- A marker-list search succeeds exactly when some marker is an infix of
the searched text. -/
theorem any_isSubstr_iff (ms : List (List Char)) (t : List Char) :
    (ms.any fun m => isSubstr m t) = true ↔ ∃ m ∈ ms, m <:+: t := by
  simp [List.any_eq_true, isSubstr_iff_infix]

/-- C1: process-type detection scans the lower-cased text against the
verbal, mental and material keyword sets in that fixed priority order; the
first set with a match determines the result, and when no set matches the
result is "relational".  In particular the CEO example classifies as
"verbal". -/
theorem detect_process_type_priority (text : List Char) :
    (_detect_process_type text = "verbal" ↔
      ∃ m ∈ verbal_markers, m <:+: pyLower text)
  ∧ (_detect_process_type text = "mental" ↔
      ((¬ ∃ m ∈ verbal_markers, m <:+: pyLower text) ∧
        ∃ m ∈ mental_markers, m <:+: pyLower text))
  ∧ (_detect_process_type text = "material" ↔
      ((¬ ∃ m ∈ verbal_markers, m <:+: pyLower text) ∧
       (¬ ∃ m ∈ mental_markers, m <:+: pyLower text) ∧
        ∃ m ∈ material_markers, m <:+: pyLower text))
  ∧ (_detect_process_type text = "relational" ↔
      ((¬ ∃ m ∈ verbal_markers, m <:+: pyLower text) ∧
       (¬ ∃ m ∈ mental_markers, m <:+: pyLower text) ∧
       (¬ ∃ m ∈ material_markers, m <:+: pyLower text)))
  ∧ (_extract_sfl_features "The CEO announced the merger.".data).transitivity.process_type
      = "verbal" := by
  have hV := any_isSubstr_iff verbal_markers (pyLower text)
  have hM := any_isSubstr_iff mental_markers (pyLower text)
  have hMa := any_isSubstr_iff material_markers (pyLower text)
  refine ⟨?_, ?_, ?_, ?_, by decide⟩ <;>
    simp only [_detect_process_type] <;>
    cases hv : (verbal_markers.any fun m => isSubstr m (pyLower text)) <;>
    cases hm : (mental_markers.any fun m => isSubstr m (pyLower text)) <;>
    cases hma : (material_markers.any fun m => isSubstr m (pyLower text)) <;>
    simp_all

/-- C2: mood is determined purely by the final character of the stripped
text: "?" gives interrogative, "!" gives exclamative, anything else
(including the empty string) gives declarative. -/
theorem analyze_mood_trailing_char (text : List Char) :
    (_analyze_mood text = "interrogative" ↔ (pyStrip text).getLast? = some '?')
  ∧ (_analyze_mood text = "exclamative" ↔ (pyStrip text).getLast? = some '!')
  ∧ (_analyze_mood text = "declarative" ↔
      ((pyStrip text).getLast? ≠ some '?' ∧ (pyStrip text).getLast? ≠ some '!'))
  ∧ _analyze_mood [] = "declarative" := by
  refine ⟨?_, ?_, ?_, rfl⟩ <;>
    simp only [_analyze_mood] <;>
    by_cases hq : (pyStrip text).getLast? = some '?' <;>
    by_cases he : (pyStrip text).getLast? = some '!' <;>
    simp_all

/-- C3: the cohesion-marker result is the order-preserving, duplicate-free
sublist of the fixed marker list consisting of the markers occurring in the
lower-cased text; the spec example yields ["however", "thus"]. -/
theorem find_cohesion_markers_spec (text : List Char) :
    (_find_cohesion_markers text).Sublist cohesion_marker_list
  ∧ (∀ m, m ∈ _find_cohesion_markers text ↔
      (m ∈ cohesion_marker_list ∧ m <:+: pyLower text))
  ∧ (_find_cohesion_markers text).Nodup
  ∧ _find_cohesion_markers
      "However, the results were inconclusive. Thus we proceed.".data
      = ["however".data, "thus".data] := by
  refine ⟨List.filter_sublist _, ?_, ?_, by decide⟩
  · intro m
    simp [_find_cohesion_markers, List.mem_filter, isSubstr_iff_infix]
  · exact List.Nodup.filter _ (by decide)

/-- C4: register detection is three independent components: field is
"business" exactly when a business term occurs case-sensitively in the
original text (else "general"), tenor is "formal" exactly when a formal
marker occurs in the lower-cased text (else "neutral"), and mode is the
constant "written". -/
theorem detect_register_components (text : List Char) :
    ((_detect_register text).field = "business" ↔
      ∃ t ∈ business_terms, t <:+: text)
  ∧ ((_detect_register text).field = "general" ↔
      ¬ ∃ t ∈ business_terms, t <:+: text)
  ∧ ((_detect_register text).tenor = "formal" ↔
      ∃ m ∈ formal_markers, m <:+: pyLower text)
  ∧ ((_detect_register text).tenor = "neutral" ↔
      ¬ ∃ m ∈ formal_markers, m <:+: pyLower text)
  ∧ (_detect_register text).mode = "written" := by
  have hB := any_isSubstr_iff business_terms text
  have hF := any_isSubstr_iff formal_markers (pyLower text)
  refine ⟨?_, ?_, ?_, ?_, rfl⟩ <;>
    simp only [_detect_register, _detect_field, _detect_tenor] <;>
    cases hb : (business_terms.any fun t => isSubstr t text) <;>
    cases hf : (formal_markers.any fun m => isSubstr m (pyLower text)) <;>
    simp_all

/-- With a nonempty accumulator, `splitAux` emits the accumulated prefix
extended by the next run of non-whitespace characters, then continues after
that run. -/
theorem splitAux_cons_word (l : List Char) : ∀ acc : List Char, acc ≠ [] →
    splitAux l acc
      = (acc.reverse ++ l.takeWhile (fun c => !isPySpace c))
        :: splitAux (l.dropWhile (fun c => !isPySpace c)) [] := by
  induction l with
  | nil =>
    intro acc h
    simp [splitAux, List.isEmpty_iff, h]
  | cons c cs ih =>
    intro acc h
    by_cases hc : isPySpace c
    · simp [splitAux, hc, List.isEmpty_iff, h]
    · simp only [splitAux, hc, List.takeWhile_cons, List.dropWhile_cons,
        Bool.not_false, if_neg, if_true, ite_false, ite_true]
      rw [ih (c :: acc) (by simp)]
      simp

/-- `_identify_theme` returns the first maximal run of non-whitespace
characters after the leading whitespace. -/
theorem identify_theme_eq_takeWhile (text : List Char) :
    _identify_theme text
      = (text.dropWhile isPySpace).takeWhile (fun c => !isPySpace c) := by
  induction text with
  | nil => rfl
  | cons c cs ih =>
    by_cases hc : isPySpace c
    · simpa [_identify_theme, pySplit, splitAux, hc] using ih
    · simp [_identify_theme, pySplit, splitAux, hc, splitAux_cons_word cs [c] (by simp)]

/-- A list whose `dropWhile p` is nonempty starts that remainder with a
character refuting `p`. -/
theorem dropWhile_head_false (p : Char → Bool) (l : List Char) :
    ∀ c cs, l.dropWhile p = c :: cs → p c = false := by
  induction l with
  | nil =>
    intro c cs h
    simp [List.dropWhile] at h
  | cons a as ih =>
    intro c cs h
    rw [List.dropWhile_cons] at h
    by_cases ha : p a
    · rw [if_pos ha] at h
      exact ih c cs h
    · rw [if_neg ha] at h
      cases h
      simpa using ha

/-- C5: the theme is the first whitespace-delimited token of the text, and
it is empty exactly when the text consists of whitespace only. -/
theorem identify_theme_first_token (text : List Char) :
    _identify_theme text
      = (text.dropWhile isPySpace).takeWhile (fun c => !isPySpace c)
  ∧ (_identify_theme text = [] ↔ ∀ c ∈ text, isPySpace c = true) := by
  refine ⟨identify_theme_eq_takeWhile text, ?_⟩
  rw [identify_theme_eq_takeWhile text, ← List.dropWhile_eq_nil_iff]
  constructor
  · intro h
    cases hd : text.dropWhile isPySpace with
    | nil => rfl
    | cons c cs =>
      rw [hd, List.takeWhile_cons, dropWhile_head_false isPySpace text c cs hd] at h
      simp at h
  · intro h
    rw [h]
    rfl

/-- C6: when `analyze` is false no features are attached and when it is
true the extractor output is attached; the translated text is always the
stub format around the target language; confidence is the constant 0.92;
and the "Hello" example produces "[Translated to fr]: Hello". -/
theorem translate_facade_spec (self : SFLTranslator) (text : List Char)
    (pr ca : Bool) (region : Option (List Char)) :
    (translate self text pr ca false region).sfl_analysis = none
  ∧ (translate self text pr ca true region).sfl_analysis
      = some (_extract_sfl_features text)
  ∧ (∀ analyze : Bool, (translate self text pr ca analyze region).translation
      = "[Translated to ".data ++ self.target_lang ++ "]: ".data ++ text)
  ∧ (∀ analyze : Bool, (translate self text pr ca analyze region).confidence = 0.92)
  ∧ (translate ⟨"en".data, "fr".data, none, false⟩ "Hello".data
      true false false none).translation = "[Translated to fr]: Hello".data
  ∧ (translate ⟨"en".data, "fr".data, none, false⟩ "Hello".data
      true false false none).sfl_analysis = none
  ∧ (translate ⟨"en".data, "fr".data, none, false⟩ "Hello".data
      true false false none).confidence = 0.92 :=
  ⟨rfl, rfl, fun _ => rfl, fun _ => rfl, by decide, rfl, rfl⟩

/-- C7: for every input the detected process type is the string value of
one of the six `ProcessType` enumeration members, and the detected mood is
one of the three mood strings. -/
theorem extract_enum_invariant (text : List Char) :
    (∃ p : ProcessType,
      (_extract_sfl_features text).transitivity.process_type = ProcessType.value p)
  ∧ (_extract_sfl_features text).mood ∈
      (["declarative", "interrogative", "exclamative"] : List String) := by
  constructor
  · simp only [_extract_sfl_features, _detect_process_type]
    split
    · exact ⟨.verbal, rfl⟩
    · split
      · exact ⟨.mental, rfl⟩
      · split
        · exact ⟨.material, rfl⟩
        · exact ⟨.relational, rfl⟩
  · simp only [_extract_sfl_features, _analyze_mood]
    split
    · simp
    · split <;> simp

/-- C8: the extractor is a pure function of the text alone (it is modelled
as a plain function, reflecting that the source method reads no instance
state), so two calls on the same input agree in every field. -/
theorem extract_pure_deterministic (text : List Char) :
    _extract_sfl_features text = _extract_sfl_features text
  ∧ (_extract_sfl_features text).transitivity
      = (_extract_sfl_features text).transitivity
  ∧ (_extract_sfl_features text).mood = (_extract_sfl_features text).mood
  ∧ (_extract_sfl_features text).theme = (_extract_sfl_features text).theme
  ∧ (_extract_sfl_features text).register = (_extract_sfl_features text).register
  ∧ (_extract_sfl_features text).cohesion_markers
      = (_extract_sfl_features text).cohesion_markers :=
  ⟨rfl, rfl, rfl, rfl, rfl, rfl⟩

/-- C9: the `preserve_register`, `cultural_adaptation` and `region`
arguments never influence the translation result: two calls differing only
in those arguments return identical results. -/
theorem translate_ignores_options (self : SFLTranslator) (text : List Char)
    (analyze : Bool) (pr1 pr2 ca1 ca2 : Bool) (r1 r2 : Option (List Char)) :
    translate self text pr1 ca1 analyze r1 = translate self text pr2 ca2 analyze r2 :=
  rfl

/-- C10: keyword matching is plain substring containment, not whole-word
matching: "do" occurs inside "window" without being one of its
whitespace-delimited tokens, yet the process type of "window" is
"material"; likewise embedded occurrences trigger the field, tenor and
cohesion detectors. -/
theorem substring_matching_not_whole_word :
    isSubstr "do".data (pyLower "window".data) = true
  ∧ "do".data ∉ pySplit (pyLower "window".data)
  ∧ (_extract_sfl_features "window".data).transitivity.process_type = "material"
  ∧ _detect_field "the mergers".data = "business"
  ∧ _detect_tenor "the marshall".data = "formal"
  ∧ _find_cohesion_markers "thusly".data = ["thus".data] := by
  refine ⟨by decide, by decide, by decide, by decide, by decide, by decide⟩

end SflTranslation
